import Mathlib

/- Verification of the netlistener bandwidth-throttling library (Go).

   Shallow embedding notes:
   - `rate.Limit` is a Go float64.  Every limit occurring in this code is either
     `rate.Inf` or the float64 obtained by converting a Go `int` (int64); such a
     float64 always has an exact integer value, so we model the type as
     `RateLimit := inf | val (x : Int)` where `val x` is the float64 whose exact
     value is the integer `x`.  Go's int→float64 conversion rounds to nearest,
     ties to even; `f64ofInt` below computes that rounding exactly over `Int`.
   - `rate.Limiter` is modelled time-free: `waitN` (the embedding of
     `Limiter.WaitN` with a `context.TODO()` context, which carries no deadline
     and is never cancelled) fails exactly when `n > burst && limit != Inf`
     (the only error path WaitN has under such a context), succeeds immediately
     without touching the bucket when the limit is `Inf`, consumes `burst` when
     the limit is 0 (the library's special case in `reserveN`), and otherwise
     consumes `n` tokens, reporting the delay `(n - tokens)/limit` that the
     caller would sleep when the bucket goes negative.  Refill and the cap of
     tokens at burst are time-dependent and are abstracted away; no claim below
     depends on them.
   - Pointers (`*rate.Limiter`, `*bandwithConfig`) are modelled as addresses
     into an explicit heap `Heap`; `nil` is `Option.none`.  Heap cells are
     updated in place, so object identity and shared mutation are visible.
   - `throttledConnection.Read/Write` return an event trace recording, in
     order, the waits (with the limiter address, the requested token count and
     the delay), the drift check, and the delegation to the underlying
     connection; the underlying connection's result is an opaque value `u`
     returned unchanged in the `ok` case, while `waitErr` stands for Go's
     `return 0, err`. -/

namespace Netlistener

/-! ## Exact model of Go int→float64 conversion (round to nearest, ties to even) -/

/-- Number of binary digits of `n`, with explicit fuel (64 suffices for every
Go `int` magnitude handled here, `|n| ≤ 2^63`). -/
def bitlenAux : Nat → Nat → Nat
  | 0, _ => 0
  | fuel + 1, n => if n = 0 then 0 else bitlenAux fuel (n / 2) + 1

/-- Binary length of a natural number below `2^64`. -/
def bitlen (n : Nat) : Nat := bitlenAux 64 n

/-- Distance between consecutive float64 values at magnitude `n`
(1 for `n < 2^53`, i.e. exactly representable). -/
def f64ulp (n : Nat) : Nat := if bitlen n ≤ 53 then 1 else 2 ^ (bitlen n - 53)

/-- Round `n` to the nearest multiple of `s`, ties to the even multiple. -/
def roundEven (n s : Nat) : Nat :=
  if 2 * (n % s) < s then (n / s) * s
  else if s < 2 * (n % s) then (n / s + 1) * s
  else if (n / s) % 2 = 0 then (n / s) * s else (n / s + 1) * s

/-- The exact integer value of the float64 nearest to `n` (ties to even). -/
def f64ofNat (n : Nat) : Nat := roundEven n (f64ulp n)

/-- The exact integer value of `float64(n)` for a Go int `n`
(IEEE rounding is symmetric under negation). -/
def f64ofInt (n : Int) : Int :=
  if 0 ≤ n then (f64ofNat n.toNat : Int) else -(f64ofNat (-n).toNat : Int)

/-- `math.MaxInt` on a 64-bit platform. -/
def maxInt : Int := 2 ^ 63 - 1

/-! ## rate.Limit and rate.Limiter -/

/-- `rate.Limit`: `inf` is `rate.Inf`; `val x` is a float64 whose exact value
is the integer `x` (every finite limit in this codebase arises from a Go int). -/
inductive RateLimit where
  | inf : RateLimit
  | val : Int → RateLimit
deriving DecidableEq

/-- `rate.Limiter`, time-free: limit, burst, and the current token count.
Tokens are a float64 in the source; under the time-free abstraction they are
initialized to the burst and only ever decremented by integer requests, so
they are modelled as `Int` (negative tokens represent waits already committed
to). -/
structure Limiter where
  limit : RateLimit
  burst : Int
  tokens : Int
deriving DecidableEq

/-- `rate.NewLimiter(r, b)`: a fresh limiter starts with a full bucket. -/
def rateNewLimiter (r : RateLimit) (b : Int) : Limiter := ⟨r, b, b⟩

/-- `Limiter.WaitN(context.TODO(), n)`:
`none` is the error return (only `n > burst && limit != Inf`, since the
context has no deadline and is never cancelled); `some (l, d)` is success
after sleeping delay `d`, with the bucket state after consuming. -/
def waitN (l : Limiter) (n : Nat) : Option (Limiter × Rat) :=
  match l.limit with
  | RateLimit.inf => some (l, 0)
  | RateLimit.val r =>
    if (n : Int) > l.burst then none
    else if r = 0 then some ({ l with burst := l.burst - (n : Int) }, 0)
    else if 0 ≤ l.tokens - (n : Int) then some ({ l with tokens := l.tokens - (n : Int) }, 0)
    else
      some ({ l with tokens := l.tokens - (n : Int) },
        ((-(l.tokens - (n : Int)) : Int) : Rat) / ((r : Int) : Rat))

/-! ## The heap: limiter cells and config cells addressed by naturals -/

/-- `formatRateLimit` (config.go): nil means unlimited. -/
def formatRateLimit : Option Int → RateLimit
  | none => RateLimit.inf
  | some n => RateLimit.val (f64ofInt n)

/-- `formatBurst` (config.go): nil gives burst 0, otherwise the raw int. -/
def formatBurst : Option Int → Int
  | none => 0
  | some n => n

/-- `parseBurstFromRateLimit` (config.go): 0 for Inf, clamped to `math.MaxInt`
when the float64 limit is at least `float64(math.MaxInt)` (which is `2^63`),
otherwise `int(limit)` (exact, the float64 carries an integer value). -/
def parseBurstFromRateLimit : RateLimit → Int
  | RateLimit.inf => 0
  | RateLimit.val x => if f64ofInt maxInt ≤ x then maxInt else x

/-- `bandwithConfig` (config.go): the two global limiters are pointers
(heap addresses, `none` = nil); the per-connection limits are plain values. -/
structure BWConfig where
  globalWriteLimiter : Option Nat
  perConnWriteLimit : RateLimit
  globalReadLimiter : Option Nat
  perConnReadLimit : RateLimit
deriving DecidableEq

/-- `connectionBandwithConfig` (config.go): a pointer to the parent
`bandwithConfig` plus two private per-connection limiter pointers. -/
structure ConnCfg where
  globalConfig : Nat
  perConnWriteLimiter : Option Nat
  perConnReadLimiter : Option Nat
deriving DecidableEq

/-- Pointwise update of a heap map. -/
def upd {α : Type} (f : Nat → α) (a : Nat) (v : α) : Nat → α :=
  fun b => if b = a then v else f b

/-- The heap: limiter cells and config cells with allocation counters. -/
structure Heap where
  limAt : Nat → Limiter
  limNext : Nat
  cfgAt : Nat → BWConfig
  cfgNext : Nat

def Heap.setLim (h : Heap) (a : Nat) (l : Limiter) : Heap :=
  { h with limAt := upd h.limAt a l }

def Heap.allocLim (h : Heap) (l : Limiter) : Nat × Heap :=
  (h.limNext, { h with limAt := upd h.limAt h.limNext l, limNext := h.limNext + 1 })

def Heap.setCfg (h : Heap) (a : Nat) (c : BWConfig) : Heap :=
  { h with cfgAt := upd h.cfgAt a c }

def Heap.allocCfg (h : Heap) (c : BWConfig) : Nat × Heap :=
  (h.cfgNext, { h with cfgAt := upd h.cfgAt h.cfgNext c, cfgNext := h.cfgNext + 1 })

def emptyHeap : Heap :=
  ⟨fun _ => ⟨RateLimit.inf, 0, 0⟩, 0, fun _ => ⟨none, RateLimit.inf, none, RateLimit.inf⟩, 0⟩

/-! ## bandwithConfig operations (config.go) -/

/-- `NewBandwithConfig` (config.go:30): allocates the two global limiters
(write first, then read) and stores both per-connection limits from the one
`perConnLimit` argument; returns the address of the new config. -/
def NewBandwithConfig (globalLimit perConnLimit : Option Int) (h : Heap) : Nat × Heap :=
  let w := h.allocLim (rateNewLimiter (formatRateLimit globalLimit) (formatBurst globalLimit))
  let r := w.2.allocLim (rateNewLimiter (formatRateLimit globalLimit) (formatBurst globalLimit))
  r.2.allocCfg
    { globalWriteLimiter := some w.1
      perConnWriteLimit := formatRateLimit perConnLimit
      globalReadLimiter := some r.1
      perConnReadLimit := formatRateLimit perConnLimit }

/-- `bandwithConfig.SetGlobalLimit` (config.go:42): for each direction, if the
limiter pointer is nil allocate a fresh limiter, else mutate the existing one
in place via `SetLimit`/`SetBurst` (tokens untouched; write side first). -/
def SetGlobalLimit (a : Nat) (globalLimit : Option Int) (h : Heap) : Heap :=
  let c := h.cfgAt a
  let h1 :=
    match c.globalWriteLimiter with
    | none =>
      let w := h.allocLim (rateNewLimiter (formatRateLimit globalLimit) (formatBurst globalLimit))
      w.2.setCfg a { c with globalWriteLimiter := some w.1 }
    | some aw =>
      h.setLim aw
        { h.limAt aw with limit := formatRateLimit globalLimit, burst := formatBurst globalLimit }
  let c1 := h1.cfgAt a
  match c1.globalReadLimiter with
  | none =>
    let r := h1.allocLim (rateNewLimiter (formatRateLimit globalLimit) (formatBurst globalLimit))
    r.2.setCfg a { c1 with globalReadLimiter := some r.1 }
  | some ar =>
    h1.setLim ar
      { h1.limAt ar with limit := formatRateLimit globalLimit, burst := formatBurst globalLimit }

/-- `bandwithConfig.SetPerConnLimit` (config.go:61): stores the same formatted
value into both per-connection limit fields. -/
def SetPerConnLimit (a : Nat) (perConnLimit : Option Int) (h : Heap) : Heap :=
  let c := h.cfgAt a
  h.setCfg a
    { c with
      perConnReadLimit := formatRateLimit perConnLimit
      perConnWriteLimit := formatRateLimit perConnLimit }

/-- `bandwithConfig.PerConnWriteLimit` (config.go:69). -/
def bwPerConnWriteLimit (h : Heap) (a : Nat) : RateLimit := (h.cfgAt a).perConnWriteLimit

/-- `bandwithConfig.PerConnReadLimit` (config.go:76). -/
def bwPerConnReadLimit (h : Heap) (a : Nat) : RateLimit := (h.cfgAt a).perConnReadLimit

/-- `bandwithConfig.GlobalReadLimiter` (config.go:83) — as written in the
source, this returns the `globalWriteLimiter` field. -/
def bwGlobalReadLimiter (h : Heap) (a : Nat) : Option Nat := (h.cfgAt a).globalWriteLimiter

/-- `bandwithConfig.GlobalWriteLimiter` (config.go:90). -/
def bwGlobalWriteLimiter (h : Heap) (a : Nat) : Option Nat := (h.cfgAt a).globalWriteLimiter

/-! ## connectionBandwithConfig operations (config.go) -/

/-- `NewConnectionBandwithConfig` (config.go:107): seeds the private read
limiter and then the private write limiter, both from the parent's
`perConnReadLimit` field (as in the source, lines 112-113). -/
def NewConnectionBandwithConfig (a : Nat) (h : Heap) : ConnCfg × Heap :=
  let c := h.cfgAt a
  let r := h.allocLim (rateNewLimiter c.perConnReadLimit (parseBurstFromRateLimit c.perConnReadLimit))
  let w := r.2.allocLim (rateNewLimiter c.perConnReadLimit (parseBurstFromRateLimit c.perConnReadLimit))
  ({ globalConfig := a, perConnWriteLimiter := some w.1, perConnReadLimiter := some r.1 }, w.2)

/-- `connectionBandwithConfig.SetPerConnWriteLimit` (config.go:118): allocate
if nil, else mutate limit and burst in place. -/
def setPerConnWriteLimit (cc : ConnCfg) (l : RateLimit) (h : Heap) : ConnCfg × Heap :=
  match cc.perConnWriteLimiter with
  | none =>
    let w := h.allocLim (rateNewLimiter l (parseBurstFromRateLimit l))
    ({ cc with perConnWriteLimiter := some w.1 }, w.2)
  | some aw =>
    (cc, h.setLim aw { h.limAt aw with limit := l, burst := parseBurstFromRateLimit l })

/-- `connectionBandwithConfig.SetPerConnReadLimit` (config.go:130). -/
def setPerConnReadLimit (cc : ConnCfg) (l : RateLimit) (h : Heap) : ConnCfg × Heap :=
  match cc.perConnReadLimiter with
  | none =>
    let r := h.allocLim (rateNewLimiter l (parseBurstFromRateLimit l))
    ({ cc with perConnReadLimiter := some r.1 }, r.2)
  | some ar =>
    (cc, h.setLim ar { h.limAt ar with limit := l, burst := parseBurstFromRateLimit l })

/-- `connectionBandwithConfig.GlobalReadLimiter` (config.go:170): delegates to
the parent config's `globalReadLimiter` field (correct direction). -/
def connGlobalReadLimiter (h : Heap) (cc : ConnCfg) : Option Nat :=
  (h.cfgAt cc.globalConfig).globalReadLimiter

/-- `connectionBandwithConfig.GlobalWriteLimiter` (config.go:177). -/
def connGlobalWriteLimiter (h : Heap) (cc : ConnCfg) : Option Nat :=
  (h.cfgAt cc.globalConfig).globalWriteLimiter

/-! ## throttledConnection (connection source file) -/

/-- Events emitted by a throttled Read/Write, in order. -/
inductive Ev where
  | waitOk : Nat → Nat → Rat → Ev
  | waitFail : Nat → Nat → Ev
  | driftCheck : Bool → Ev
  | ioCall : Nat → Ev
deriving DecidableEq

/-- Result of a throttled Read/Write: `waitErr` is Go's `return 0, err` from a
failed limiter wait; `ok u` returns the underlying connection's result `u`
unchanged; `panicked` is a nil-limiter dereference (unreachable from the
public constructors). -/
inductive RWRes (α : Type) where
  | panicked : RWRes α
  | waitErr : RWRes α
  | ok : α → RWRes α
deriving DecidableEq

/-- `throttledConnection.Read` (lines 23-37 of the connection file):
wait on the global read limiter for `blen` tokens; drift-check the private
read limiter against the parent's `perConnReadLimit` and re-apply it when they
differ; wait on the private read limiter; then delegate to the underlying
connection, whose result `u` is returned unchanged. -/
def connRead {α : Type} (cc : ConnCfg) (blen : Nat) (u : α) (h : Heap) :
    RWRes α × Heap × List Ev :=
  match connGlobalReadLimiter h cc with
  | none => (RWRes.panicked, h, [])
  | some ga =>
    match waitN (h.limAt ga) blen with
    | none => (RWRes.waitErr, h, [Ev.waitFail ga blen])
    | some g =>
      let h1 := h.setLim ga g.1
      match cc.perConnReadLimiter with
      | none => (RWRes.panicked, h1, [Ev.waitOk ga blen g.2])
      | some pa =>
        let st :=
          if (h1.cfgAt cc.globalConfig).perConnReadLimit ≠ (h1.limAt pa).limit then
            (setPerConnReadLimit cc (h1.cfgAt cc.globalConfig).perConnReadLimit h1, true)
          else ((cc, h1), false)
        match st.1.1.perConnReadLimiter with
        | none => (RWRes.panicked, st.1.2, [Ev.waitOk ga blen g.2, Ev.driftCheck st.2])
        | some pa2 =>
          match waitN (st.1.2.limAt pa2) blen with
          | none =>
            (RWRes.waitErr, st.1.2,
             [Ev.waitOk ga blen g.2, Ev.driftCheck st.2, Ev.waitFail pa2 blen])
          | some p =>
            (RWRes.ok u, st.1.2.setLim pa2 p.1,
             [Ev.waitOk ga blen g.2, Ev.driftCheck st.2, Ev.waitOk pa2 blen p.2,
              Ev.ioCall blen])

/-- `throttledConnection.Write` (lines 41-55 of the connection file):
symmetric to Read with the write-side limiters, except that the drift
re-application passes the parent's `perConnReadLimit` field (as the source
does on line 54: `SetPerConnWriteLimit(c.config.globalConfig.perConnReadLimit)`). -/
def connWrite {α : Type} (cc : ConnCfg) (blen : Nat) (u : α) (h : Heap) :
    RWRes α × Heap × List Ev :=
  match connGlobalWriteLimiter h cc with
  | none => (RWRes.panicked, h, [])
  | some ga =>
    match waitN (h.limAt ga) blen with
    | none => (RWRes.waitErr, h, [Ev.waitFail ga blen])
    | some g =>
      let h1 := h.setLim ga g.1
      match cc.perConnWriteLimiter with
      | none => (RWRes.panicked, h1, [Ev.waitOk ga blen g.2])
      | some pa =>
        let st :=
          if (h1.cfgAt cc.globalConfig).perConnWriteLimit ≠ (h1.limAt pa).limit then
            (setPerConnWriteLimit cc (h1.cfgAt cc.globalConfig).perConnReadLimit h1, true)
          else ((cc, h1), false)
        match st.1.1.perConnWriteLimiter with
        | none => (RWRes.panicked, st.1.2, [Ev.waitOk ga blen g.2, Ev.driftCheck st.2])
        | some pa2 =>
          match waitN (st.1.2.limAt pa2) blen with
          | none =>
            (RWRes.waitErr, st.1.2,
             [Ev.waitOk ga blen g.2, Ev.driftCheck st.2, Ev.waitFail pa2 blen])
          | some p =>
            (RWRes.ok u, st.1.2.setLim pa2 p.1,
             [Ev.waitOk ga blen g.2, Ev.driftCheck st.2, Ev.waitOk pa2 blen p.2,
              Ev.ioCall blen])

/-! ## Listener (listener.go) -/

/-- `Listener` (listener.go): wraps a raw listener and owns one config. -/
structure Listener where
  config : Nat

/-- `NewListener` (listener.go:14). -/
def NewListener (globalLimit perConnLimit : Option Int) (h : Heap) : Listener × Heap :=
  let c := NewBandwithConfig globalLimit perConnLimit h
  (⟨c.1⟩, c.2)

/-- `Listener.SetLimits` (listener.go:21): takes both limits by value (always
non-nil) and applies global then per-connection. -/
def listenerSetLimits (l : Listener) (globalLimit perConnLimit : Int) (h : Heap) : Heap :=
  SetPerConnLimit l.config (some perConnLimit) (SetGlobalLimit l.config (some globalLimit) h)

/-- `Listener.Accept` (listener.go:26): on success wraps the raw connection
with a fresh connection config built from the listener's config. -/
def listenerAccept (l : Listener) (h : Heap) : ConnCfg × Heap :=
  NewConnectionBandwithConfig l.config h

/-! ## Reachable states of a listener-level config -/

/-- Heap states reachable for a config at address `a` under the public API:
construction, the two setters (at any config address), connection creation,
and throttled reads/writes. -/
inductive ReachableCfg : Heap → Nat → Prop where
  | newCfg (g p : Option Int) (h : Heap) :
      ReachableCfg (NewBandwithConfig g p h).2 (NewBandwithConfig g p h).1
  | setGlobal (g : Option Int) (b : Nat) {h : Heap} {a : Nat} :
      ReachableCfg h a → ReachableCfg (SetGlobalLimit b g h) a
  | setPerConn (p : Option Int) (b : Nat) {h : Heap} {a : Nat} :
      ReachableCfg h a → ReachableCfg (SetPerConnLimit b p h) a
  | newConn (b : Nat) {h : Heap} {a : Nat} :
      ReachableCfg h a → ReachableCfg (NewConnectionBandwithConfig b h).2 a
  | rdStep {α : Type} (cc : ConnCfg) (blen : Nat) (u : α) {h : Heap} {a : Nat} :
      ReachableCfg h a → ReachableCfg (connRead cc blen u h).2.1 a
  | wrStep {α : Type} (cc : ConnCfg) (blen : Nat) (u : α) {h : Heap} {a : Nat} :
      ReachableCfg h a → ReachableCfg (connWrite cc blen u h).2.1 a

/-! ## Helper lemmas -/

lemma upd_eq {α : Type} (f : Nat → α) (a : Nat) (v : α) : upd f a v a = v := by
  simp [upd]

lemma upd_ne {α : Type} (f : Nat → α) (a : Nat) (v : α) {b : Nat} (hb : b ≠ a) :
    upd f a v b = f b := by
  simp [upd, hb]

lemma upd_self {α : Type} (f : Nat → α) (a : Nat) : upd f a (f a) = f := by
  funext b
  unfold upd
  split
  next hb => rw [hb]
  next => rfl

lemma setLim_self (h : Heap) (a : Nat) : h.setLim a (h.limAt a) = h := by
  simp [Heap.setLim, upd_self]

/-- A successful `waitN` never changes the limiter's limit. -/
lemma waitN_limit {l : Limiter} {n : Nat} {r : Limiter × Rat} (hw : waitN l n = some r) :
    r.1.limit = l.limit := by
  unfold waitN at hw
  split at hw
  next heq => cases hw; rw [heq]
  next r0 heq =>
    split at hw
    next => cases hw
    next =>
      split at hw
      next => cases hw; rw [heq]
      next =>
        split at hw
        next => cases hw; rw [heq]
        next => cases hw; rw [heq]

/-- `WaitN` fails exactly at the source's burst check when the limit is finite. -/
lemma waitN_burst_exceeded {l : Limiter} {n : Nat} {r : Int} (hl : l.limit = RateLimit.val r)
    (hb : (n : Int) > l.burst) : waitN l n = none := by
  unfold waitN
  rw [hl]
  simp [hb]

/-- A throttled read never touches any config cell. -/
lemma connRead_cfgAt {α : Type} (cc : ConnCfg) (blen : Nat) (u : α) (h : Heap) :
    ((connRead cc blen u h).2.1).cfgAt = h.cfgAt := by
  unfold connRead
  cases hga : connGlobalReadLimiter h cc with
  | none => rfl
  | some ga =>
    simp only []
    cases hw : waitN (h.limAt ga) blen with
    | none => rfl
    | some g =>
      simp only []
      cases hpa : cc.perConnReadLimiter with
      | none => rfl
      | some pa =>
        simp only []
        by_cases hd : ((h.setLim ga g.1).cfgAt cc.globalConfig).perConnReadLimit ≠
            ((h.setLim ga g.1).limAt pa).limit
        · simp only [if_pos hd, setPerConnReadLimit, hpa]
          cases hp : waitN (((h.setLim ga g.1).setLim pa
              { limit := ((h.setLim ga g.1).cfgAt cc.globalConfig).perConnReadLimit,
                burst :=
                  parseBurstFromRateLimit ((h.setLim ga g.1).cfgAt cc.globalConfig).perConnReadLimit,
                tokens := ((h.setLim ga g.1).limAt pa).tokens }).limAt pa) blen with
          | none => rfl
          | some p => rfl
        · simp only [if_neg hd, hpa]
          cases hp : waitN ((h.setLim ga g.1).limAt pa) blen with
          | none => rfl
          | some p => rfl

/-- A throttled write never touches any config cell. -/
lemma connWrite_cfgAt {α : Type} (cc : ConnCfg) (blen : Nat) (u : α) (h : Heap) :
    ((connWrite cc blen u h).2.1).cfgAt = h.cfgAt := by
  unfold connWrite
  cases hga : connGlobalWriteLimiter h cc with
  | none => rfl
  | some ga =>
    simp only []
    cases hw : waitN (h.limAt ga) blen with
    | none => rfl
    | some g =>
      simp only []
      cases hpa : cc.perConnWriteLimiter with
      | none => rfl
      | some pa =>
        simp only []
        by_cases hd : ((h.setLim ga g.1).cfgAt cc.globalConfig).perConnWriteLimit ≠
            ((h.setLim ga g.1).limAt pa).limit
        · simp only [if_pos hd, setPerConnWriteLimit, hpa]
          cases hp : waitN (((h.setLim ga g.1).setLim pa
              { limit := ((h.setLim ga g.1).cfgAt cc.globalConfig).perConnReadLimit,
                burst :=
                  parseBurstFromRateLimit ((h.setLim ga g.1).cfgAt cc.globalConfig).perConnReadLimit,
                tokens := ((h.setLim ga g.1).limAt pa).tokens }).limAt pa) blen with
          | none => rfl
          | some p => rfl
        · simp only [if_neg hd, hpa]
          cases hp : waitN ((h.setLim ga g.1).limAt pa) blen with
          | none => rfl
          | some p => rfl

/-! ## Facts about the float64 rounding model -/

lemma bitlenAux_zero (fuel : Nat) : bitlenAux fuel 0 = 0 := by
  cases fuel <;> rfl

lemma bitlenAux_le {fuel k n : Nat} (hn : n < 2 ^ k) (hk : k ≤ fuel) : bitlenAux fuel n ≤ k := by
  induction fuel generalizing k n with
  | zero => simp [bitlenAux]
  | succ f ih =>
    unfold bitlenAux
    split
    · exact Nat.zero_le k
    · next hne =>
      obtain ⟨j, rfl⟩ : ∃ j, k = j + 1 := by
        refine ⟨k - 1, ?_⟩
        have : 1 ≤ k := by
          by_contra hcon
          have hk0 : k = 0 := by omega
          rw [hk0] at hn
          simp at hn
          omega
        omega
      have hdiv : n / 2 < 2 ^ j := by
        rw [Nat.div_lt_iff_lt_mul (by norm_num)]
        calc n < 2 ^ (j + 1) := hn
          _ = 2 ^ j * 2 := by ring
      have := ih hdiv (by omega)
      omega

lemma bitlenAux_lower {fuel n : Nat} (h1 : 1 ≤ n) (h2 : n < 2 ^ fuel) :
    2 ^ (bitlenAux fuel n - 1) ≤ n := by
  induction fuel generalizing n with
  | zero => simp at h2; omega
  | succ f ih =>
    unfold bitlenAux
    split
    · next h0 => omega
    · next h0 =>
      rcases Nat.lt_or_ge n 2 with hn2 | hn2
      · have hn1 : n = 1 := by omega
        subst hn1
        simp [bitlenAux_zero]
      · have hd1 : 1 ≤ n / 2 := by omega
        have hd2 : n / 2 < 2 ^ f := by
          rw [Nat.div_lt_iff_lt_mul (by norm_num)]
          calc n < 2 ^ (f + 1) := h2
            _ = 2 ^ f * 2 := by ring
        have hrec := ih hd1 hd2
        rcases Nat.eq_zero_or_pos (bitlenAux f (n / 2)) with hb0 | hbpos
        · rw [hb0]
          simpa using h1
        · have hsplit : bitlenAux f (n / 2) + 1 - 1 = (bitlenAux f (n / 2) - 1) + 1 := by omega
          rw [hsplit, pow_succ]
          have := Nat.mul_le_mul_right 2 hrec
          omega

lemma bitlen_le {n k : Nat} (hn : n < 2 ^ k) (hk : k ≤ 64) : bitlen n ≤ k :=
  bitlenAux_le hn hk

lemma f64ofNat_small {n : Nat} (h : n < 2 ^ 53) : f64ofNat n = n := by
  have hb : bitlen n ≤ 53 := bitlen_le h (by norm_num)
  unfold f64ofNat f64ulp
  rw [if_pos hb]
  unfold roundEven
  norm_num
  intro hcon
  exact absurd (Nat.mod_one n) hcon

lemma f64ofInt_small {n : Int} (h0 : 0 ≤ n) (h : n < 2 ^ 53) : f64ofInt n = n := by
  unfold f64ofInt
  rw [if_pos h0]
  have h53 : (2 : Int) ^ 53 = 9007199254740992 := by norm_num
  have hn : n.toNat < 2 ^ 53 := by
    have : (2 : Nat) ^ 53 = 9007199254740992 := by norm_num
    omega
  rw [f64ofNat_small hn]
  omega

lemma f64ofInt_maxInt : f64ofInt maxInt = 2 ^ 63 := by decide

lemma f64ulp_le {n : Nat} (h1 : 1 ≤ n) (h2 : n < 2 ^ 64) : f64ulp n ≤ n := by
  unfold f64ulp
  split
  · exact h1
  · next hgt =>
    have hlow : 2 ^ (bitlen n - 1) ≤ n := bitlenAux_lower h1 h2
    calc 2 ^ (bitlen n - 53) ≤ 2 ^ (bitlen n - 1) :=
          Nat.pow_le_pow_right (by norm_num) (by omega)
      _ ≤ n := hlow

lemma f64ulp_pos (n : Nat) : 1 ≤ f64ulp n := by
  unfold f64ulp
  split
  · exact le_refl 1
  · exact Nat.one_le_two_pow

lemma roundEven_pos {n s : Nat} (hs : 1 ≤ s) (hsn : s ≤ n) : 1 ≤ roundEven n s := by
  have hq : 1 ≤ n / s := (Nat.one_le_div_iff (by omega)).2 hsn
  unfold roundEven
  split
  · simpa using Nat.mul_le_mul hq hs
  · split
    · simpa using Nat.mul_le_mul (by omega : 1 ≤ n / s + 1) hs
    · split
      · simpa using Nat.mul_le_mul hq hs
      · simpa using Nat.mul_le_mul (by omega : 1 ≤ n / s + 1) hs

lemma f64ofNat_pos {n : Nat} (h1 : 1 ≤ n) (h2 : n < 2 ^ 64) : 1 ≤ f64ofNat n :=
  roundEven_pos (f64ulp_pos n) (f64ulp_le h1 h2)

lemma f64ofInt_neg {n : Int} (hn : n < 0) (hb : -(2 ^ 64) < n) : f64ofInt n < 0 := by
  unfold f64ofInt
  rw [if_neg (by omega)]
  have h64 : (2 : Int) ^ 64 = 18446744073709551616 := by norm_num
  have h64n : (2 : Nat) ^ 64 = 18446744073709551616 := by norm_num
  have h1 : 1 ≤ (-n).toNat := by omega
  have h2 : (-n).toNat < 2 ^ 64 := by omega
  have := f64ofNat_pos h1 h2
  omega

/-! ## Claims -/

/-- C4: a throttled listener built with both limits absent (`NewListener(l, nil, nil)`)
never delays any Read or Write.  All four limiters (global read/write at heap
addresses 0 and 1, per-connection read/write at 2 and 3) carry `rate.Inf`, every
`waitN` under an infinite limit returns immediately (delay 0, no error, bucket
untouched), and a throttled Read/Write returns the underlying connection's
result `u` unchanged with the heap unmodified — identical behaviour to the raw
connection. -/
theorem unlimited_limits_never_block {α : Type} (blen : Nat) (u : α) :
    (∀ (b t : Int) (n : Nat), waitN ⟨RateLimit.inf, b, t⟩ n = some (⟨RateLimit.inf, b, t⟩, 0))
    ∧ (((listenerAccept (NewListener none none emptyHeap).1
          (NewListener none none emptyHeap).2).2.limAt 0).limit = RateLimit.inf
        ∧ ((listenerAccept (NewListener none none emptyHeap).1
            (NewListener none none emptyHeap).2).2.limAt 1).limit = RateLimit.inf
        ∧ ((listenerAccept (NewListener none none emptyHeap).1
            (NewListener none none emptyHeap).2).2.limAt 2).limit = RateLimit.inf
        ∧ ((listenerAccept (NewListener none none emptyHeap).1
            (NewListener none none emptyHeap).2).2.limAt 3).limit = RateLimit.inf)
    ∧ connRead (listenerAccept (NewListener none none emptyHeap).1
          (NewListener none none emptyHeap).2).1 blen u
        (listenerAccept (NewListener none none emptyHeap).1
          (NewListener none none emptyHeap).2).2 =
        (RWRes.ok u,
         (listenerAccept (NewListener none none emptyHeap).1
           (NewListener none none emptyHeap).2).2,
         [Ev.waitOk 1 blen 0, Ev.driftCheck false, Ev.waitOk 2 blen 0, Ev.ioCall blen])
    ∧ connWrite (listenerAccept (NewListener none none emptyHeap).1
          (NewListener none none emptyHeap).2).1 blen u
        (listenerAccept (NewListener none none emptyHeap).1
          (NewListener none none emptyHeap).2).2 =
        (RWRes.ok u,
         (listenerAccept (NewListener none none emptyHeap).1
           (NewListener none none emptyHeap).2).2,
         [Ev.waitOk 0 blen 0, Ev.driftCheck false, Ev.waitOk 3 blen 0, Ev.ioCall blen]) := by
  refine ⟨fun b t n => rfl, ⟨rfl, rfl, rfl, rfl⟩, ?_, ?_⟩
  · show (RWRes.ok u,
        ((listenerAccept (NewListener none none emptyHeap).1
            (NewListener none none emptyHeap).2).2.setLim 1
          ((listenerAccept (NewListener none none emptyHeap).1
            (NewListener none none emptyHeap).2).2.limAt 1)).setLim 2
          (((listenerAccept (NewListener none none emptyHeap).1
              (NewListener none none emptyHeap).2).2.setLim 1
            ((listenerAccept (NewListener none none emptyHeap).1
              (NewListener none none emptyHeap).2).2.limAt 1)).limAt 2),
        [Ev.waitOk 1 blen 0, Ev.driftCheck false, Ev.waitOk 2 blen 0, Ev.ioCall blen]) = _
    rw [setLim_self, setLim_self]
  · show (RWRes.ok u,
        ((listenerAccept (NewListener none none emptyHeap).1
            (NewListener none none emptyHeap).2).2.setLim 0
          ((listenerAccept (NewListener none none emptyHeap).1
            (NewListener none none emptyHeap).2).2.limAt 0)).setLim 3
          (((listenerAccept (NewListener none none emptyHeap).1
              (NewListener none none emptyHeap).2).2.setLim 0
            ((listenerAccept (NewListener none none emptyHeap).1
              (NewListener none none emptyHeap).2).2.limAt 0)).limAt 3),
        [Ev.waitOk 0 blen 0, Ev.driftCheck false, Ev.waitOk 3 blen 0, Ev.ioCall blen]) = _
    rw [setLim_self, setLim_self]

/-- C5 counterexample: at `n = 2^53 + 1` (not exactly representable in float64)
`formatBurst` keeps the raw integer while `parseBurstFromRateLimit` recovers
only the float64-rounded value `2^53`, so the two burst computations disagree. -/
theorem burst_seeding_disagrees_counterexample :
    formatBurst (some (2 ^ 53 + 1)) ≠
      parseBurstFromRateLimit (formatRateLimit (some (2 ^ 53 + 1))) := by
  decide

/-- C5 (amended): the two burst computations — `formatBurst` at construction /
`SetGlobalLimit` and `parseBurstFromRateLimit` at connection seeding / drift
re-application — agree for every non-negative limit `n` whose float64
conversion is exact, in particular for every `0 ≤ n < 2^53`; for larger `n`
they can differ by the float64 rounding of `rate.Limit(n)`. -/
theorem burst_seeding_agrees_on_exact_floats (n : Int) (h0 : 0 ≤ n) (h : n < 2 ^ 53) :
    formatBurst (some n) = parseBurstFromRateLimit (formatRateLimit (some n)) := by
  have h1 : formatRateLimit (some n) = RateLimit.val n := by
    unfold formatRateLimit
    simp only []
    rw [f64ofInt_small h0 h]
  rw [h1]
  unfold parseBurstFromRateLimit formatBurst
  simp only []
  rw [if_neg ?hcl]
  case hcl =>
    rw [f64ofInt_maxInt]
    have h53 : (2 : Int) ^ 53 = 9007199254740992 := by norm_num
    have h63 : (2 : Int) ^ 63 = 9223372036854775808 := by norm_num
    omega

/-- Witness for C5's amended theorem at `n = 7`. -/
theorem burst_seeding_agrees_on_exact_floats_witness :
    (0 : Int) ≤ 7 ∧ (7 : Int) < 2 ^ 53 ∧
      formatBurst (some 7) = parseBurstFromRateLimit (formatRateLimit (some 7)) :=
  ⟨by norm_num, by norm_num,
   burst_seeding_agrees_on_exact_floats 7 (by norm_num) (by norm_num)⟩

/-- C6: the two global budgets are distinct limiter objects and the
connection-level accessors return the limiter of their own direction, but the
listener-level `bandwithConfig.GlobalReadLimiter` returns the
`globalWriteLimiter` object (config.go line 87), contradicting its name and
the claimed direction — evaluated on the config built by
`NewBandwithConfig(&5, &3)`. -/
theorem global_read_accessor_returns_write_limiter :
    ((NewBandwithConfig (some 5) (some 3) emptyHeap).2.cfgAt
        (NewBandwithConfig (some 5) (some 3) emptyHeap).1).globalReadLimiter ≠
      ((NewBandwithConfig (some 5) (some 3) emptyHeap).2.cfgAt
        (NewBandwithConfig (some 5) (some 3) emptyHeap).1).globalWriteLimiter
    ∧ bwGlobalReadLimiter (NewBandwithConfig (some 5) (some 3) emptyHeap).2
        (NewBandwithConfig (some 5) (some 3) emptyHeap).1 =
      ((NewBandwithConfig (some 5) (some 3) emptyHeap).2.cfgAt
        (NewBandwithConfig (some 5) (some 3) emptyHeap).1).globalWriteLimiter
    ∧ bwGlobalReadLimiter (NewBandwithConfig (some 5) (some 3) emptyHeap).2
        (NewBandwithConfig (some 5) (some 3) emptyHeap).1 ≠
      ((NewBandwithConfig (some 5) (some 3) emptyHeap).2.cfgAt
        (NewBandwithConfig (some 5) (some 3) emptyHeap).1).globalReadLimiter
    ∧ bwGlobalWriteLimiter (NewBandwithConfig (some 5) (some 3) emptyHeap).2
        (NewBandwithConfig (some 5) (some 3) emptyHeap).1 =
      ((NewBandwithConfig (some 5) (some 3) emptyHeap).2.cfgAt
        (NewBandwithConfig (some 5) (some 3) emptyHeap).1).globalWriteLimiter
    ∧ connGlobalReadLimiter
        (NewConnectionBandwithConfig (NewBandwithConfig (some 5) (some 3) emptyHeap).1
          (NewBandwithConfig (some 5) (some 3) emptyHeap).2).2
        (NewConnectionBandwithConfig (NewBandwithConfig (some 5) (some 3) emptyHeap).1
          (NewBandwithConfig (some 5) (some 3) emptyHeap).2).1 =
      ((NewBandwithConfig (some 5) (some 3) emptyHeap).2.cfgAt
        (NewBandwithConfig (some 5) (some 3) emptyHeap).1).globalReadLimiter
    ∧ connGlobalWriteLimiter
        (NewConnectionBandwithConfig (NewBandwithConfig (some 5) (some 3) emptyHeap).1
          (NewBandwithConfig (some 5) (some 3) emptyHeap).2).2
        (NewConnectionBandwithConfig (NewBandwithConfig (some 5) (some 3) emptyHeap).1
          (NewBandwithConfig (some 5) (some 3) emptyHeap).2).1 =
      ((NewBandwithConfig (some 5) (some 3) emptyHeap).2.cfgAt
        (NewBandwithConfig (some 5) (some 3) emptyHeap).1).globalWriteLimiter := by
  decide

/-- C7 counterexample: `NewBandwithConfig(&(-5), &(-5))` neither rejects nor
clamps the negative limit — the global write bucket ends up with rate `-5` and
burst `-5`, and the stored per-connection limit is also `-5`. -/
theorem negative_limit_reaches_bucket_counterexample :
    ((NewBandwithConfig (some (-5)) (some (-5)) emptyHeap).2.limAt 0).burst < 0
    ∧ ((NewBandwithConfig (some (-5)) (some (-5)) emptyHeap).2.limAt 0).limit =
        RateLimit.val (-5)
    ∧ ((NewBandwithConfig (some (-5)) (some (-5)) emptyHeap).2.cfgAt 0).perConnReadLimit =
        RateLimit.val (-5) := by
  decide

/-- C7 (amended): a negative limit `n` is passed through unchanged rather than
rejected or clamped: `formatRateLimit` yields the (negative) float64 of `n`,
`formatBurst` yields `n` itself, and the bucket built by `NewBandwithConfig`
ends up with that negative rate and negative burst. -/
theorem negative_limit_passes_through (n : Int) (hn : n < 0) (hb : -(2 ^ 63) ≤ n) (h : Heap) :
    formatRateLimit (some n) = RateLimit.val (f64ofInt n)
    ∧ f64ofInt n < 0
    ∧ formatBurst (some n) = n
    ∧ ((NewBandwithConfig (some n) (some n) h).2.limAt h.limNext).limit =
        RateLimit.val (f64ofInt n)
    ∧ ((NewBandwithConfig (some n) (some n) h).2.limAt h.limNext).burst = n
    ∧ ((NewBandwithConfig (some n) (some n) h).2.cfgAt
        (NewBandwithConfig (some n) (some n) h).1).perConnReadLimit =
        RateLimit.val (f64ofInt n) := by
  have hneg : f64ofInt n < 0 := by
    refine f64ofInt_neg hn ?_
    have h63 : (2 : Int) ^ 63 = 9223372036854775808 := by norm_num
    have h64 : (2 : Int) ^ 64 = 18446744073709551616 := by norm_num
    omega
  have e : (NewBandwithConfig (some n) (some n) h).2.limAt h.limNext =
      rateNewLimiter (formatRateLimit (some n)) (formatBurst (some n)) := by
    show upd (upd h.limAt h.limNext _) (h.limNext + 1) _ h.limNext = _
    rw [upd_ne _ _ _ (by omega), upd_eq]
  have ec : (NewBandwithConfig (some n) (some n) h).2.cfgAt
      (NewBandwithConfig (some n) (some n) h).1 =
      { globalWriteLimiter := some h.limNext
        perConnWriteLimit := formatRateLimit (some n)
        globalReadLimiter := some (h.limNext + 1)
        perConnReadLimit := formatRateLimit (some n) } := by
    show upd h.cfgAt h.cfgNext _ h.cfgNext = _
    rw [upd_eq]
    rfl
  refine ⟨rfl, hneg, rfl, ?_, ?_, ?_⟩
  · rw [e]; rfl
  · rw [e]; rfl
  · rw [ec]; rfl

/-- C1: on every throttled Read the engine first waits on the global read
limiter, then performs the drift check, then waits on the private
per-connection read limiter, and only then calls the underlying connection's
Read, whose result `u` is returned unchanged; Write is symmetric with the
write-side limiters; and when either wait fails the call returns the error
(`waitErr`, Go's `return 0, err`) without any `ioCall` event, i.e. the
underlying Read/Write is never invoked.  The three disjuncts per direction
enumerate every possible trace. -/
theorem throttle_sequencing {α : Type} (h : Heap) (cc : ConnCfg) (blen : Nat) (u : α)
    (ga pa gw pw : Nat)
    (hga : connGlobalReadLimiter h cc = some ga) (hpa : cc.perConnReadLimiter = some pa)
    (hgw : connGlobalWriteLimiter h cc = some gw) (hpw : cc.perConnWriteLimiter = some pw) :
    ((connRead cc blen u h = (RWRes.waitErr, h, [Ev.waitFail ga blen]))
      ∨ (∃ d1 b h2, connRead cc blen u h =
          (RWRes.waitErr, h2, [Ev.waitOk ga blen d1, Ev.driftCheck b, Ev.waitFail pa blen]))
      ∨ (∃ d1 b d2 h3, connRead cc blen u h =
          (RWRes.ok u, h3,
           [Ev.waitOk ga blen d1, Ev.driftCheck b, Ev.waitOk pa blen d2, Ev.ioCall blen])))
    ∧ ((connWrite cc blen u h = (RWRes.waitErr, h, [Ev.waitFail gw blen]))
      ∨ (∃ d1 b h2, connWrite cc blen u h =
          (RWRes.waitErr, h2, [Ev.waitOk gw blen d1, Ev.driftCheck b, Ev.waitFail pw blen]))
      ∨ (∃ d1 b d2 h3, connWrite cc blen u h =
          (RWRes.ok u, h3,
           [Ev.waitOk gw blen d1, Ev.driftCheck b, Ev.waitOk pw blen d2, Ev.ioCall blen]))) := by
  constructor
  · unfold connRead
    simp only [hga]
    cases hw : waitN (h.limAt ga) blen with
    | none => exact Or.inl rfl
    | some g =>
      simp only [hpa]
      by_cases hd : ((h.setLim ga g.1).cfgAt cc.globalConfig).perConnReadLimit ≠
          ((h.setLim ga g.1).limAt pa).limit
      · simp only [if_pos hd, setPerConnReadLimit, hpa]
        cases hp : waitN (((h.setLim ga g.1).setLim pa
            { limit := ((h.setLim ga g.1).cfgAt cc.globalConfig).perConnReadLimit,
              burst :=
                parseBurstFromRateLimit ((h.setLim ga g.1).cfgAt cc.globalConfig).perConnReadLimit,
              tokens := ((h.setLim ga g.1).limAt pa).tokens }).limAt pa) blen with
        | none => exact Or.inr (Or.inl ⟨g.2, true, _, rfl⟩)
        | some p => exact Or.inr (Or.inr ⟨g.2, true, p.2, _, rfl⟩)
      · simp only [if_neg hd, hpa]
        cases hp : waitN ((h.setLim ga g.1).limAt pa) blen with
        | none => exact Or.inr (Or.inl ⟨g.2, false, _, rfl⟩)
        | some p => exact Or.inr (Or.inr ⟨g.2, false, p.2, _, rfl⟩)
  · unfold connWrite
    simp only [hgw]
    cases hw : waitN (h.limAt gw) blen with
    | none => exact Or.inl rfl
    | some g =>
      simp only [hpw]
      by_cases hd : ((h.setLim gw g.1).cfgAt cc.globalConfig).perConnWriteLimit ≠
          ((h.setLim gw g.1).limAt pw).limit
      · simp only [if_pos hd, setPerConnWriteLimit, hpw]
        cases hp : waitN (((h.setLim gw g.1).setLim pw
            { limit := ((h.setLim gw g.1).cfgAt cc.globalConfig).perConnReadLimit,
              burst :=
                parseBurstFromRateLimit ((h.setLim gw g.1).cfgAt cc.globalConfig).perConnReadLimit,
              tokens := ((h.setLim gw g.1).limAt pw).tokens }).limAt pw) blen with
        | none => exact Or.inr (Or.inl ⟨g.2, true, _, rfl⟩)
        | some p => exact Or.inr (Or.inr ⟨g.2, true, p.2, _, rfl⟩)
      · simp only [if_neg hd, hpw]
        cases hp : waitN ((h.setLim gw g.1).limAt pw) blen with
        | none => exact Or.inr (Or.inl ⟨g.2, false, _, rfl⟩)
        | some p => exact Or.inr (Or.inr ⟨g.2, false, p.2, _, rfl⟩)

/-- Witness for C1 on the connection built from `NewBandwithConfig(&100, &1)`
with a 5-byte buffer (global read limiter at address 1, private read limiter
at 2, global write at 0, private write at 3). -/
theorem throttle_sequencing_witness :
    (connRead (NewConnectionBandwithConfig (NewBandwithConfig (some 100) (some 1) emptyHeap).1
          (NewBandwithConfig (some 100) (some 1) emptyHeap).2).1 5 (42 : Nat)
        (NewConnectionBandwithConfig (NewBandwithConfig (some 100) (some 1) emptyHeap).1
          (NewBandwithConfig (some 100) (some 1) emptyHeap).2).2 =
      (RWRes.waitErr,
       (NewConnectionBandwithConfig (NewBandwithConfig (some 100) (some 1) emptyHeap).1
         (NewBandwithConfig (some 100) (some 1) emptyHeap).2).2,
       [Ev.waitFail 1 5]))
    ∨ (∃ d1 b h2, connRead (NewConnectionBandwithConfig
          (NewBandwithConfig (some 100) (some 1) emptyHeap).1
          (NewBandwithConfig (some 100) (some 1) emptyHeap).2).1 5 (42 : Nat)
        (NewConnectionBandwithConfig (NewBandwithConfig (some 100) (some 1) emptyHeap).1
          (NewBandwithConfig (some 100) (some 1) emptyHeap).2).2 =
        (RWRes.waitErr, h2, [Ev.waitOk 1 5 d1, Ev.driftCheck b, Ev.waitFail 2 5]))
    ∨ (∃ d1 b d2 h3, connRead (NewConnectionBandwithConfig
          (NewBandwithConfig (some 100) (some 1) emptyHeap).1
          (NewBandwithConfig (some 100) (some 1) emptyHeap).2).1 5 (42 : Nat)
        (NewConnectionBandwithConfig (NewBandwithConfig (some 100) (some 1) emptyHeap).1
          (NewBandwithConfig (some 100) (some 1) emptyHeap).2).2 =
        (RWRes.ok 42, h3,
         [Ev.waitOk 1 5 d1, Ev.driftCheck b, Ev.waitOk 2 5 d2, Ev.ioCall 5])) := by
  exact (throttle_sequencing
    (NewConnectionBandwithConfig (NewBandwithConfig (some 100) (some 1) emptyHeap).1
      (NewBandwithConfig (some 100) (some 1) emptyHeap).2).2
    (NewConnectionBandwithConfig (NewBandwithConfig (some 100) (some 1) emptyHeap).1
      (NewBandwithConfig (some 100) (some 1) emptyHeap).2).1
    5 42 1 2 0 3 rfl rfl rfl rfl).1

/-- C2: the drift check converges.  (a) Whenever a Read's global wait succeeds,
the call leaves the private read limiter's rate equal to the listener config's
current `perConnReadLimit` (updating it if it had drifted).  (b) Same for
Write against `perConnWriteLimit`, under the invariant (proved separately for
every reachable config) that the two per-connection limit fields are equal —
needed because the source's write-side re-application passes the read field.
(c) Consequently, after `SetPerConnLimit(L)` the first subsequent Read (resp.
Write) whose global wait succeeds leaves the private read (resp. write)
limiter with rate `float64(L)`. -/
theorem drift_check_convergence {α : Type} (blen : Nat) (u : α) :
    (∀ (h : Heap) (cc : ConnCfg) (ga pa : Nat) (r : Limiter × Rat),
      connGlobalReadLimiter h cc = some ga → cc.perConnReadLimiter = some pa →
      waitN (h.limAt ga) blen = some r →
      (((connRead cc blen u h).2.1).limAt pa).limit =
        (h.cfgAt cc.globalConfig).perConnReadLimit)
    ∧ (∀ (h : Heap) (cc : ConnCfg) (gw pw : Nat) (r : Limiter × Rat),
      connGlobalWriteLimiter h cc = some gw → cc.perConnWriteLimiter = some pw →
      waitN (h.limAt gw) blen = some r →
      (h.cfgAt cc.globalConfig).perConnWriteLimit =
        (h.cfgAt cc.globalConfig).perConnReadLimit →
      (((connWrite cc blen u h).2.1).limAt pw).limit =
        (h.cfgAt cc.globalConfig).perConnWriteLimit)
    ∧ (∀ (h : Heap) (cc : ConnCfg) (L : Int) (ga pa gw pw : Nat) (r1 r2 : Limiter × Rat),
      connGlobalReadLimiter (SetPerConnLimit cc.globalConfig (some L) h) cc = some ga →
      cc.perConnReadLimiter = some pa →
      waitN ((SetPerConnLimit cc.globalConfig (some L) h).limAt ga) blen = some r1 →
      connGlobalWriteLimiter (SetPerConnLimit cc.globalConfig (some L) h) cc = some gw →
      cc.perConnWriteLimiter = some pw →
      waitN ((SetPerConnLimit cc.globalConfig (some L) h).limAt gw) blen = some r2 →
      (((connRead cc blen u (SetPerConnLimit cc.globalConfig (some L) h)).2.1).limAt pa).limit =
          RateLimit.val (f64ofInt L)
        ∧ (((connWrite cc blen u
              (SetPerConnLimit cc.globalConfig (some L) h)).2.1).limAt pw).limit =
          RateLimit.val (f64ofInt L)) := by
  have hA : ∀ (h : Heap) (cc : ConnCfg) (ga pa : Nat) (r : Limiter × Rat),
      connGlobalReadLimiter h cc = some ga → cc.perConnReadLimiter = some pa →
      waitN (h.limAt ga) blen = some r →
      (((connRead cc blen u h).2.1).limAt pa).limit =
        (h.cfgAt cc.globalConfig).perConnReadLimit := by
    intro h cc ga pa r hga hpa hw
    unfold connRead
    simp only [hga]
    rw [hw]
    simp only [hpa]
    by_cases hd : ((h.setLim ga r.1).cfgAt cc.globalConfig).perConnReadLimit ≠
        ((h.setLim ga r.1).limAt pa).limit
    · simp only [if_pos hd, setPerConnReadLimit, hpa]
      cases hp : waitN (((h.setLim ga r.1).setLim pa
          { limit := ((h.setLim ga r.1).cfgAt cc.globalConfig).perConnReadLimit,
            burst :=
              parseBurstFromRateLimit ((h.setLim ga r.1).cfgAt cc.globalConfig).perConnReadLimit,
            tokens := ((h.setLim ga r.1).limAt pa).tokens }).limAt pa) blen with
      | none =>
        simp only [Heap.setLim, upd_eq]
      | some p =>
        have hl := waitN_limit hp
        simp only [Heap.setLim, upd_eq] at hl ⊢
        rw [hl]
    · simp only [if_neg hd, hpa]
      push_neg at hd
      cases hp : waitN ((h.setLim ga r.1).limAt pa) blen with
      | none => exact hd.symm
      | some p =>
        have hl := waitN_limit hp
        simp only [Heap.setLim, upd_eq] at hl ⊢
        rw [hl]
        exact hd.symm
  have hB : ∀ (h : Heap) (cc : ConnCfg) (gw pw : Nat) (r : Limiter × Rat),
      connGlobalWriteLimiter h cc = some gw → cc.perConnWriteLimiter = some pw →
      waitN (h.limAt gw) blen = some r →
      (h.cfgAt cc.globalConfig).perConnWriteLimit =
        (h.cfgAt cc.globalConfig).perConnReadLimit →
      (((connWrite cc blen u h).2.1).limAt pw).limit =
        (h.cfgAt cc.globalConfig).perConnWriteLimit := by
    intro h cc gw pw r hgw hpw hw hfe
    unfold connWrite
    simp only [hgw]
    rw [hw]
    simp only [hpw]
    by_cases hd : ((h.setLim gw r.1).cfgAt cc.globalConfig).perConnWriteLimit ≠
        ((h.setLim gw r.1).limAt pw).limit
    · simp only [if_pos hd, setPerConnWriteLimit, hpw]
      cases hp : waitN (((h.setLim gw r.1).setLim pw
          { limit := ((h.setLim gw r.1).cfgAt cc.globalConfig).perConnReadLimit,
            burst :=
              parseBurstFromRateLimit ((h.setLim gw r.1).cfgAt cc.globalConfig).perConnReadLimit,
            tokens := ((h.setLim gw r.1).limAt pw).tokens }).limAt pw) blen with
      | none =>
        simp only [Heap.setLim, upd_eq]
        exact hfe.symm
      | some p =>
        have hl := waitN_limit hp
        simp only [Heap.setLim, upd_eq] at hl ⊢
        rw [hl]
        exact hfe.symm
    · simp only [if_neg hd, hpw]
      push_neg at hd
      cases hp : waitN ((h.setLim gw r.1).limAt pw) blen with
      | none => exact hd.symm
      | some p =>
        have hl := waitN_limit hp
        simp only [Heap.setLim, upd_eq] at hl ⊢
        rw [hl]
        exact hd.symm
  refine ⟨hA, hB, ?_⟩
  intro h cc L ga pa gw pw r1 r2 hga hpa hw1 hgw hpw hw2
  constructor
  · have hcall := hA (SetPerConnLimit cc.globalConfig (some L) h) cc ga pa r1 hga hpa hw1
    rw [hcall]
    show (upd h.cfgAt cc.globalConfig _ cc.globalConfig).perConnReadLimit = _
    rw [upd_eq]
    rfl
  · have hfe : ((SetPerConnLimit cc.globalConfig (some L) h).cfgAt
        cc.globalConfig).perConnWriteLimit =
        ((SetPerConnLimit cc.globalConfig (some L) h).cfgAt
          cc.globalConfig).perConnReadLimit := by
      show (upd h.cfgAt cc.globalConfig _ cc.globalConfig).perConnWriteLimit =
        (upd h.cfgAt cc.globalConfig _ cc.globalConfig).perConnReadLimit
      rw [upd_eq]
    have hcall := hB (SetPerConnLimit cc.globalConfig (some L) h) cc gw pw r2 hgw hpw hw2 hfe
    rw [hcall]
    show (upd h.cfgAt cc.globalConfig _ cc.globalConfig).perConnWriteLimit = _
    rw [upd_eq]
    rfl

/-- Witness for C2 (part c) on the connection built from
`NewBandwithConfig(nil, &5)` after `SetPerConnLimit(&7)`: one Read and one
Write with a 1-byte buffer leave both private limiters (addresses 2 and 3)
with rate `float64(7) = 7`. -/
theorem drift_check_convergence_witness :
    (((connRead (NewConnectionBandwithConfig (NewBandwithConfig none (some 5) emptyHeap).1
            (NewBandwithConfig none (some 5) emptyHeap).2).1 1 (42 : Nat)
          (SetPerConnLimit
            (NewConnectionBandwithConfig (NewBandwithConfig none (some 5) emptyHeap).1
              (NewBandwithConfig none (some 5) emptyHeap).2).1.globalConfig (some 7)
            (NewConnectionBandwithConfig (NewBandwithConfig none (some 5) emptyHeap).1
              (NewBandwithConfig none (some 5) emptyHeap).2).2)).2.1).limAt 2).limit =
        RateLimit.val (f64ofInt 7)
      ∧ (((connWrite (NewConnectionBandwithConfig (NewBandwithConfig none (some 5) emptyHeap).1
            (NewBandwithConfig none (some 5) emptyHeap).2).1 1 (42 : Nat)
          (SetPerConnLimit
            (NewConnectionBandwithConfig (NewBandwithConfig none (some 5) emptyHeap).1
              (NewBandwithConfig none (some 5) emptyHeap).2).1.globalConfig (some 7)
            (NewConnectionBandwithConfig (NewBandwithConfig none (some 5) emptyHeap).1
              (NewBandwithConfig none (some 5) emptyHeap).2).2)).2.1).limAt 3).limit =
        RateLimit.val (f64ofInt 7) := by
  exact (drift_check_convergence 1 (42 : Nat)).2.2
    (NewConnectionBandwithConfig (NewBandwithConfig none (some 5) emptyHeap).1
      (NewBandwithConfig none (some 5) emptyHeap).2).2
    (NewConnectionBandwithConfig (NewBandwithConfig none (some 5) emptyHeap).1
      (NewBandwithConfig none (some 5) emptyHeap).2).1
    7 1 2 0 3 _ _ rfl rfl rfl rfl rfl rfl

/-- C3: `SetGlobalLimit` (and `Listener.SetLimits`, which calls it with a
non-nil pointer) mutates the two existing global limiters in place: the config
record — in particular the two limiter addresses — is completely unchanged,
the limiter cells at those addresses get the new rate and burst while their
token count is untouched, and any connection config pointing at this listener
config sees the updated limiters through its accessors with no re-accept. -/
theorem set_global_limit_in_place (h : Heap) (a aw ar : Nat) (g p : Int) (cc : ConnCfg)
    (hw : (h.cfgAt a).globalWriteLimiter = some aw)
    (hr : (h.cfgAt a).globalReadLimiter = some ar)
    (hcc : cc.globalConfig = a) :
    (SetGlobalLimit a (some g) h).cfgAt = h.cfgAt
    ∧ ((SetGlobalLimit a (some g) h).limAt aw).limit = formatRateLimit (some g)
    ∧ ((SetGlobalLimit a (some g) h).limAt aw).burst = formatBurst (some g)
    ∧ ((SetGlobalLimit a (some g) h).limAt aw).tokens = (h.limAt aw).tokens
    ∧ ((SetGlobalLimit a (some g) h).limAt ar).limit = formatRateLimit (some g)
    ∧ ((SetGlobalLimit a (some g) h).limAt ar).burst = formatBurst (some g)
    ∧ ((SetGlobalLimit a (some g) h).limAt ar).tokens = (h.limAt ar).tokens
    ∧ connGlobalReadLimiter (SetGlobalLimit a (some g) h) cc = some ar
    ∧ connGlobalWriteLimiter (SetGlobalLimit a (some g) h) cc = some aw
    ∧ ((listenerSetLimits ⟨a⟩ g p h).cfgAt a).globalWriteLimiter = some aw
    ∧ ((listenerSetLimits ⟨a⟩ g p h).cfgAt a).globalReadLimiter = some ar
    ∧ ((listenerSetLimits ⟨a⟩ g p h).limAt aw).limit = formatRateLimit (some g)
    ∧ ((listenerSetLimits ⟨a⟩ g p h).limAt ar).limit = formatRateLimit (some g) := by
  have E : SetGlobalLimit a (some g) h =
      (h.setLim aw { h.limAt aw with
          limit := formatRateLimit (some g), burst := formatBurst (some g) }).setLim ar
        { (h.setLim aw { h.limAt aw with
            limit := formatRateLimit (some g), burst := formatBurst (some g) }).limAt ar with
          limit := formatRateLimit (some g), burst := formatBurst (some g) } := by
    unfold SetGlobalLimit
    simp only [hw]
    simp only [show ((h.setLim aw { h.limAt aw with
        limit := formatRateLimit (some g),
        burst := formatBurst (some g) }).cfgAt a).globalReadLimiter = some ar from hr]
  have Hcfg : (SetGlobalLimit a (some g) h).cfgAt = h.cfgAt := by
    rw [E]
    rfl
  have Law : (SetGlobalLimit a (some g) h).limAt aw =
      { limit := formatRateLimit (some g), burst := formatBurst (some g),
        tokens := (h.limAt aw).tokens } := by
    rw [E]
    by_cases haw : aw = ar
    · subst haw
      simp [Heap.setLim, upd]
    · simp [Heap.setLim, upd, haw]
  have Lar : (SetGlobalLimit a (some g) h).limAt ar =
      { limit := formatRateLimit (some g), burst := formatBurst (some g),
        tokens := (h.limAt ar).tokens } := by
    rw [E]
    by_cases haw : ar = aw
    · subst haw
      simp [Heap.setLim, upd]
    · simp [Heap.setLim, upd, haw]
  have Hl : (listenerSetLimits ⟨a⟩ g p h).limAt = (SetGlobalLimit a (some g) h).limAt := rfl
  have Hlc : (listenerSetLimits ⟨a⟩ g p h).cfgAt a =
      { (SetGlobalLimit a (some g) h).cfgAt a with
        perConnReadLimit := formatRateLimit (some p)
        perConnWriteLimit := formatRateLimit (some p) } := by
    show upd ((SetGlobalLimit a (some g) h).cfgAt) a _ a = _
    rw [upd_eq]
  refine ⟨Hcfg, ?_, ?_, ?_, ?_, ?_, ?_, ?_, ?_, ?_, ?_, ?_, ?_⟩
  · rw [Law]
  · rw [Law]
  · rw [Law]
  · rw [Lar]
  · rw [Lar]
  · rw [Lar]
  · unfold connGlobalReadLimiter
    rw [Hcfg, hcc]
    exact hr
  · unfold connGlobalWriteLimiter
    rw [Hcfg, hcc]
    exact hw
  · rw [Hlc]
    show ((SetGlobalLimit a (some g) h).cfgAt a).globalWriteLimiter = some aw
    rw [Hcfg]
    exact hw
  · rw [Hlc]
    show ((SetGlobalLimit a (some g) h).cfgAt a).globalReadLimiter = some ar
    rw [Hcfg]
    exact hr
  · rw [Hl, Law]
  · rw [Hl, Lar]

/-- Witness for C3 on the config built by `NewBandwithConfig(&5, &3)` (write
limiter at address 0, read limiter at 1), updating the global limit to 9 with
per-connection limit 4. -/
theorem set_global_limit_in_place_witness :
    ((SetGlobalLimit (NewBandwithConfig (some 5) (some 3) emptyHeap).1 (some 9)
        (NewBandwithConfig (some 5) (some 3) emptyHeap).2).limAt 0).limit =
      formatRateLimit (some 9)
    ∧ ((SetGlobalLimit (NewBandwithConfig (some 5) (some 3) emptyHeap).1 (some 9)
        (NewBandwithConfig (some 5) (some 3) emptyHeap).2).limAt 1).limit =
      formatRateLimit (some 9)
    ∧ connGlobalReadLimiter
        (SetGlobalLimit (NewBandwithConfig (some 5) (some 3) emptyHeap).1 (some 9)
          (NewBandwithConfig (some 5) (some 3) emptyHeap).2)
        (NewConnectionBandwithConfig (NewBandwithConfig (some 5) (some 3) emptyHeap).1
          (NewBandwithConfig (some 5) (some 3) emptyHeap).2).1 = some 1 := by
  refine ⟨?_, ?_, ?_⟩
  · exact (set_global_limit_in_place (NewBandwithConfig (some 5) (some 3) emptyHeap).2
      (NewBandwithConfig (some 5) (some 3) emptyHeap).1 0 1 9 4
      (NewConnectionBandwithConfig (NewBandwithConfig (some 5) (some 3) emptyHeap).1
        (NewBandwithConfig (some 5) (some 3) emptyHeap).2).1
      rfl rfl rfl).2.1
  · exact (set_global_limit_in_place (NewBandwithConfig (some 5) (some 3) emptyHeap).2
      (NewBandwithConfig (some 5) (some 3) emptyHeap).1 0 1 9 4
      (NewConnectionBandwithConfig (NewBandwithConfig (some 5) (some 3) emptyHeap).1
        (NewBandwithConfig (some 5) (some 3) emptyHeap).2).1
      rfl rfl rfl).2.2.2.2.1
  · exact (set_global_limit_in_place (NewBandwithConfig (some 5) (some 3) emptyHeap).2
      (NewBandwithConfig (some 5) (some 3) emptyHeap).1 0 1 9 4
      (NewConnectionBandwithConfig (NewBandwithConfig (some 5) (some 3) emptyHeap).1
        (NewBandwithConfig (some 5) (some 3) emptyHeap).2).1
      rfl rfl rfl).2.2.2.2.2.2.2.1

/-- C10: when the global wait of a Read (resp. Write) succeeds and the
subsequent per-connection wait fails, the call returns the error without
performing the underlying I/O (`ioCall` never appears in the trace), yet the
`blen` tokens drained from the shared global bucket stay drained — the error
path never refunds the global budget. -/
theorem error_path_keeps_global_charge {α : Type} (blen : Nat) (u : α) :
    (∀ (h : Heap) (cc : ConnCfg) (ga pa : Nat) (rv : Int),
      connGlobalReadLimiter h cc = some ga → cc.perConnReadLimiter = some pa →
      pa ≠ ga → (h.limAt ga).limit = RateLimit.val rv → rv ≠ 0 →
      (blen : Int) ≤ (h.limAt ga).burst →
      (connRead cc blen u h).1 = RWRes.waitErr →
      ((connRead cc blen u h).2.1.limAt ga).tokens = (h.limAt ga).tokens - (blen : Int)
        ∧ Ev.ioCall blen ∉ (connRead cc blen u h).2.2)
    ∧ (∀ (h : Heap) (cc : ConnCfg) (gw pw : Nat) (rv : Int),
      connGlobalWriteLimiter h cc = some gw → cc.perConnWriteLimiter = some pw →
      pw ≠ gw → (h.limAt gw).limit = RateLimit.val rv → rv ≠ 0 →
      (blen : Int) ≤ (h.limAt gw).burst →
      (connWrite cc blen u h).1 = RWRes.waitErr →
      ((connWrite cc blen u h).2.1.limAt gw).tokens = (h.limAt gw).tokens - (blen : Int)
        ∧ Ev.ioCall blen ∉ (connWrite cc blen u h).2.2) := by
  constructor
  · intro h cc ga pa rv hga hpa hne hlim hrz hble herr
    obtain ⟨d, hw⟩ : ∃ d, waitN (h.limAt ga) blen =
        some (Limiter.mk (RateLimit.val rv) ((h.limAt ga).burst)
          ((h.limAt ga).tokens - (blen : Int)), d) := by
      unfold waitN
      rw [hlim]
      simp only []
      rw [if_neg (by omega), if_neg hrz]
      split
      · exact ⟨0, rfl⟩
      · exact ⟨_, rfl⟩
    unfold connRead at herr ⊢
    simp only [hga] at herr ⊢
    rw [hw] at herr ⊢
    simp only [hpa] at herr ⊢
    by_cases hd : ((h.setLim ga (Limiter.mk (RateLimit.val rv) ((h.limAt ga).burst)
          ((h.limAt ga).tokens - (blen : Int)))).cfgAt cc.globalConfig).perConnReadLimit ≠
        ((h.setLim ga (Limiter.mk (RateLimit.val rv) ((h.limAt ga).burst)
          ((h.limAt ga).tokens - (blen : Int)))).limAt pa).limit
    · simp only [if_pos hd, setPerConnReadLimit, hpa] at herr ⊢
      cases hp : waitN (((h.setLim ga (Limiter.mk (RateLimit.val rv) ((h.limAt ga).burst)
          ((h.limAt ga).tokens - (blen : Int)))).setLim pa
          { limit := ((h.setLim ga (Limiter.mk (RateLimit.val rv) ((h.limAt ga).burst)
              ((h.limAt ga).tokens - (blen : Int)))).cfgAt cc.globalConfig).perConnReadLimit,
            burst := parseBurstFromRateLimit ((h.setLim ga (Limiter.mk (RateLimit.val rv)
              ((h.limAt ga).burst) ((h.limAt ga).tokens - (blen : Int)))).cfgAt
                cc.globalConfig).perConnReadLimit,
            tokens := ((h.setLim ga (Limiter.mk (RateLimit.val rv) ((h.limAt ga).burst)
              ((h.limAt ga).tokens - (blen : Int)))).limAt pa).tokens }).limAt pa) blen with
      | none =>
        constructor
        · simp only [Heap.setLim]
          rw [upd_ne _ _ _ (Ne.symm hne), upd_eq]
        · simp
      | some p =>
        rw [hp] at herr
        simp at herr
    · simp only [if_neg hd, hpa] at herr ⊢
      cases hp : waitN ((h.setLim ga (Limiter.mk (RateLimit.val rv) ((h.limAt ga).burst)
          ((h.limAt ga).tokens - (blen : Int)))).limAt pa) blen with
      | none =>
        constructor
        · simp only [Heap.setLim]
          rw [upd_eq]
        · simp
      | some p =>
        rw [hp] at herr
        simp at herr
  · intro h cc gw pw rv hgw hpw hne hlim hrz hble herr
    obtain ⟨d, hw⟩ : ∃ d, waitN (h.limAt gw) blen =
        some (Limiter.mk (RateLimit.val rv) ((h.limAt gw).burst)
          ((h.limAt gw).tokens - (blen : Int)), d) := by
      unfold waitN
      rw [hlim]
      simp only []
      rw [if_neg (by omega), if_neg hrz]
      split
      · exact ⟨0, rfl⟩
      · exact ⟨_, rfl⟩
    unfold connWrite at herr ⊢
    simp only [hgw] at herr ⊢
    rw [hw] at herr ⊢
    simp only [hpw] at herr ⊢
    by_cases hd : ((h.setLim gw (Limiter.mk (RateLimit.val rv) ((h.limAt gw).burst)
          ((h.limAt gw).tokens - (blen : Int)))).cfgAt cc.globalConfig).perConnWriteLimit ≠
        ((h.setLim gw (Limiter.mk (RateLimit.val rv) ((h.limAt gw).burst)
          ((h.limAt gw).tokens - (blen : Int)))).limAt pw).limit
    · simp only [if_pos hd, setPerConnWriteLimit, hpw] at herr ⊢
      cases hp : waitN (((h.setLim gw (Limiter.mk (RateLimit.val rv) ((h.limAt gw).burst)
          ((h.limAt gw).tokens - (blen : Int)))).setLim pw
          { limit := ((h.setLim gw (Limiter.mk (RateLimit.val rv) ((h.limAt gw).burst)
              ((h.limAt gw).tokens - (blen : Int)))).cfgAt cc.globalConfig).perConnReadLimit,
            burst := parseBurstFromRateLimit ((h.setLim gw (Limiter.mk (RateLimit.val rv)
              ((h.limAt gw).burst) ((h.limAt gw).tokens - (blen : Int)))).cfgAt
                cc.globalConfig).perConnReadLimit,
            tokens := ((h.setLim gw (Limiter.mk (RateLimit.val rv) ((h.limAt gw).burst)
              ((h.limAt gw).tokens - (blen : Int)))).limAt pw).tokens }).limAt pw) blen with
      | none =>
        constructor
        · simp only [Heap.setLim]
          rw [upd_ne _ _ _ (Ne.symm hne), upd_eq]
        · simp
      | some p =>
        rw [hp] at herr
        simp at herr
    · simp only [if_neg hd, hpw] at herr ⊢
      cases hp : waitN ((h.setLim gw (Limiter.mk (RateLimit.val rv) ((h.limAt gw).burst)
          ((h.limAt gw).tokens - (blen : Int)))).limAt pw) blen with
      | none =>
        constructor
        · simp only [Heap.setLim]
          rw [upd_eq]
        · simp
      | some p =>
        rw [hp] at herr
        simp at herr

/-- Witness for C10 on the connection built from `NewBandwithConfig(&100, &1)`
with a 5-byte buffer: the global waits succeed (draining 5 of the 100 tokens),
the private waits fail (burst 1 < 5), and both buckets stay charged at 95. -/
theorem error_path_keeps_global_charge_witness :
    ((connRead (NewConnectionBandwithConfig (NewBandwithConfig (some 100) (some 1) emptyHeap).1
          (NewBandwithConfig (some 100) (some 1) emptyHeap).2).1 5 (42 : Nat)
        (NewConnectionBandwithConfig (NewBandwithConfig (some 100) (some 1) emptyHeap).1
          (NewBandwithConfig (some 100) (some 1) emptyHeap).2).2).2.1.limAt 1).tokens =
      ((NewConnectionBandwithConfig (NewBandwithConfig (some 100) (some 1) emptyHeap).1
          (NewBandwithConfig (some 100) (some 1) emptyHeap).2).2.limAt 1).tokens - (5 : Int)
    ∧ ((connWrite (NewConnectionBandwithConfig (NewBandwithConfig (some 100) (some 1) emptyHeap).1
          (NewBandwithConfig (some 100) (some 1) emptyHeap).2).1 5 (42 : Nat)
        (NewConnectionBandwithConfig (NewBandwithConfig (some 100) (some 1) emptyHeap).1
          (NewBandwithConfig (some 100) (some 1) emptyHeap).2).2).2.1.limAt 0).tokens =
      ((NewConnectionBandwithConfig (NewBandwithConfig (some 100) (some 1) emptyHeap).1
          (NewBandwithConfig (some 100) (some 1) emptyHeap).2).2.limAt 0).tokens - (5 : Int) := by
  constructor
  · exact ((error_path_keeps_global_charge 5 (42 : Nat)).1
      (NewConnectionBandwithConfig (NewBandwithConfig (some 100) (some 1) emptyHeap).1
        (NewBandwithConfig (some 100) (some 1) emptyHeap).2).2
      (NewConnectionBandwithConfig (NewBandwithConfig (some 100) (some 1) emptyHeap).1
        (NewBandwithConfig (some 100) (some 1) emptyHeap).2).1
      1 2 100 rfl rfl (by decide) rfl (by decide) (by decide) rfl).1
  · exact ((error_path_keeps_global_charge 5 (42 : Nat)).2
      (NewConnectionBandwithConfig (NewBandwithConfig (some 100) (some 1) emptyHeap).1
        (NewBandwithConfig (some 100) (some 1) emptyHeap).2).2
      (NewConnectionBandwithConfig (NewBandwithConfig (some 100) (some 1) emptyHeap).1
        (NewBandwithConfig (some 100) (some 1) emptyHeap).2).1
      0 3 100 rfl rfl (by decide) rfl (by decide) (by decide) rfl).1

/-- `SetGlobalLimit` never touches either per-connection limit field of any
config cell (it only updates the global limiter pointers or cells). -/
lemma setGlobal_perConn_fields (b : Nat) (g : Option Int) (h : Heap) (x : Nat) :
    ((SetGlobalLimit b g h).cfgAt x).perConnReadLimit = (h.cfgAt x).perConnReadLimit
    ∧ ((SetGlobalLimit b g h).cfgAt x).perConnWriteLimit = (h.cfgAt x).perConnWriteLimit := by
  unfold SetGlobalLimit
  dsimp only []
  split
  all_goals split
  all_goals constructor
  all_goals first
    | rfl
    | (simp only [Heap.setCfg, Heap.allocLim, Heap.setLim, upd]
       split
       all_goals simp_all)

/-- The config cell a fresh `NewBandwithConfig` returns. -/
lemma NewBandwithConfig_cfgAt_self (g p : Option Int) (h : Heap) :
    (NewBandwithConfig g p h).2.cfgAt (NewBandwithConfig g p h).1 =
      { globalWriteLimiter := some h.limNext, perConnWriteLimit := formatRateLimit p,
        globalReadLimiter := some (h.limNext + 1), perConnReadLimit := formatRateLimit p } := by
  show upd h.cfgAt h.cfgNext _ h.cfgNext = _
  rw [upd_eq]
  rfl

/-- `SetPerConnLimit` evaluated at any config address. -/
lemma setPerConn_cfgAt (b : Nat) (p : Option Int) (h : Heap) (x : Nat) :
    (SetPerConnLimit b p h).cfgAt x =
      if x = b then
        { h.cfgAt b with
          perConnReadLimit := formatRateLimit p, perConnWriteLimit := formatRateLimit p }
      else h.cfgAt x := rfl

/-- C8: in every heap state reachable for a listener-level config through the
public API (construction, `SetGlobalLimit`, `SetPerConnLimit`, connection
creation, throttled reads and writes), the config's `perConnReadLimit` equals
its `perConnWriteLimit`: both the constructor and `SetPerConnLimit` assign the
two fields from the same single value, and nothing else writes them, so the
API cannot configure independent per-connection read and write limits. -/
theorem per_conn_limits_always_equal (h : Heap) (a : Nat) (hr : ReachableCfg h a) :
    (h.cfgAt a).perConnReadLimit = (h.cfgAt a).perConnWriteLimit := by
  induction hr with
  | newCfg g p h0 =>
    rw [NewBandwithConfig_cfgAt_self]
  | @setGlobal g b h1 a1 hrec ih =>
    rw [(setGlobal_perConn_fields b g _ _).1, (setGlobal_perConn_fields b g _ _).2]
    exact ih
  | @setPerConn p b h1 a1 hrec ih =>
    by_cases hxb : a1 = b
    · simp [setPerConn_cfgAt, hxb]
    · simp only [setPerConn_cfgAt, if_neg hxb]
      exact ih
  | @newConn b h1 a1 hrec ih => exact ih
  | @rdStep α2 cc blen u h1 a1 hrec ih =>
    rw [connRead_cfgAt]
    exact ih
  | @wrStep α2 cc blen u h1 a1 hrec ih =>
    rw [connWrite_cfgAt]
    exact ih

/-- Witness for C8 on the reachable state
`SetPerConnLimit(&7) ∘ SetGlobalLimit(&9) ∘ NewBandwithConfig(&5, &3)`. -/
theorem per_conn_limits_always_equal_witness :
    ((SetPerConnLimit (NewBandwithConfig (some 5) (some 3) emptyHeap).1 (some 7)
        (SetGlobalLimit (NewBandwithConfig (some 5) (some 3) emptyHeap).1 (some 9)
          (NewBandwithConfig (some 5) (some 3) emptyHeap).2)).cfgAt
      (NewBandwithConfig (some 5) (some 3) emptyHeap).1).perConnReadLimit =
    ((SetPerConnLimit (NewBandwithConfig (some 5) (some 3) emptyHeap).1 (some 7)
        (SetGlobalLimit (NewBandwithConfig (some 5) (some 3) emptyHeap).1 (some 9)
          (NewBandwithConfig (some 5) (some 3) emptyHeap).2)).cfgAt
      (NewBandwithConfig (some 5) (some 3) emptyHeap).1).perConnWriteLimit :=
  per_conn_limits_always_equal _ _
    (ReachableCfg.setPerConn (some 7) (NewBandwithConfig (some 5) (some 3) emptyHeap).1
      (ReachableCfg.setGlobal (some 9) (NewBandwithConfig (some 5) (some 3) emptyHeap).1
        (ReachableCfg.newCfg (some 5) (some 3) emptyHeap)))

/-- C9: `Listener.SetLimits(g, p)` takes both limits by value, so it always
installs finite limits — the global buckets get rate `float64(g)` and burst
`g`, the per-connection fields become `float64(p)`, and neither can ever be
`rate.Inf` again (the unlimited state is only reachable by passing nil at
construction).  In particular `SetLimits(0, 0)` yields rate 0 and burst 0,
after which every Read or Write of a non-empty buffer (`blen + 1` bytes) on a
subsequently accepted connection fails at the first wait (zero throughput)
instead of passing through unthrottled. -/
theorem set_limits_always_finite {α : Type} (g p : Int) (blen : Nat) (u : α) :
    ((listenerSetLimits (NewListener none none emptyHeap).1 g p
        (NewListener none none emptyHeap).2).limAt 0).limit = RateLimit.val (f64ofInt g)
    ∧ ((listenerSetLimits (NewListener none none emptyHeap).1 g p
        (NewListener none none emptyHeap).2).limAt 0).burst = g
    ∧ ((listenerSetLimits (NewListener none none emptyHeap).1 g p
        (NewListener none none emptyHeap).2).limAt 1).limit = RateLimit.val (f64ofInt g)
    ∧ ((listenerSetLimits (NewListener none none emptyHeap).1 g p
        (NewListener none none emptyHeap).2).limAt 1).burst = g
    ∧ ((listenerSetLimits (NewListener none none emptyHeap).1 g p
        (NewListener none none emptyHeap).2).cfgAt 0).perConnReadLimit =
        RateLimit.val (f64ofInt p)
    ∧ ((listenerSetLimits (NewListener none none emptyHeap).1 g p
        (NewListener none none emptyHeap).2).cfgAt 0).perConnWriteLimit =
        RateLimit.val (f64ofInt p)
    ∧ RateLimit.val (f64ofInt g) ≠ RateLimit.inf
    ∧ RateLimit.val (f64ofInt p) ≠ RateLimit.inf
    ∧ connRead (listenerAccept (NewListener none none emptyHeap).1
          (listenerSetLimits (NewListener none none emptyHeap).1 0 0
            (NewListener none none emptyHeap).2)).1 (blen + 1) u
        (listenerAccept (NewListener none none emptyHeap).1
          (listenerSetLimits (NewListener none none emptyHeap).1 0 0
            (NewListener none none emptyHeap).2)).2 =
        (RWRes.waitErr,
         (listenerAccept (NewListener none none emptyHeap).1
           (listenerSetLimits (NewListener none none emptyHeap).1 0 0
             (NewListener none none emptyHeap).2)).2,
         [Ev.waitFail 1 (blen + 1)])
    ∧ connWrite (listenerAccept (NewListener none none emptyHeap).1
          (listenerSetLimits (NewListener none none emptyHeap).1 0 0
            (NewListener none none emptyHeap).2)).1 (blen + 1) u
        (listenerAccept (NewListener none none emptyHeap).1
          (listenerSetLimits (NewListener none none emptyHeap).1 0 0
            (NewListener none none emptyHeap).2)).2 =
        (RWRes.waitErr,
         (listenerAccept (NewListener none none emptyHeap).1
           (listenerSetLimits (NewListener none none emptyHeap).1 0 0
             (NewListener none none emptyHeap).2)).2,
         [Ev.waitFail 0 (blen + 1)]) := by
  have hpos : ((blen + 1 : Nat) : Int) > 0 := by exact_mod_cast Nat.succ_pos blen
  have hw1 : waitN ((listenerAccept (NewListener none none emptyHeap).1
      (listenerSetLimits (NewListener none none emptyHeap).1 0 0
        (NewListener none none emptyHeap).2)).2.limAt 1) (blen + 1) = none :=
    waitN_burst_exceeded rfl hpos
  have hw0 : waitN ((listenerAccept (NewListener none none emptyHeap).1
      (listenerSetLimits (NewListener none none emptyHeap).1 0 0
        (NewListener none none emptyHeap).2)).2.limAt 0) (blen + 1) = none :=
    waitN_burst_exceeded rfl hpos
  refine ⟨rfl, rfl, rfl, rfl, rfl, rfl,
    fun hcon => RateLimit.noConfusion hcon, fun hcon => RateLimit.noConfusion hcon, ?_, ?_⟩
  · unfold connRead
    simp only [show connGlobalReadLimiter (listenerAccept (NewListener none none emptyHeap).1
        (listenerSetLimits (NewListener none none emptyHeap).1 0 0
          (NewListener none none emptyHeap).2)).2
        (listenerAccept (NewListener none none emptyHeap).1
          (listenerSetLimits (NewListener none none emptyHeap).1 0 0
            (NewListener none none emptyHeap).2)).1 = some 1 from rfl]
    rw [hw1]
  · unfold connWrite
    simp only [show connGlobalWriteLimiter (listenerAccept (NewListener none none emptyHeap).1
        (listenerSetLimits (NewListener none none emptyHeap).1 0 0
          (NewListener none none emptyHeap).2)).2
        (listenerAccept (NewListener none none emptyHeap).1
          (listenerSetLimits (NewListener none none emptyHeap).1 0 0
            (NewListener none none emptyHeap).2)).1 = some 0 from rfl]
    rw [hw0]

/-- Witness for C7's amended theorem at `n = -5`. -/
theorem negative_limit_passes_through_witness :
    (-5 : Int) < 0 ∧ -(2 ^ 63) ≤ (-5 : Int) ∧ f64ofInt (-5) < 0 ∧
      ((NewBandwithConfig (some (-5)) (some (-5)) emptyHeap).2.limAt
        emptyHeap.limNext).burst = -5 :=
  ⟨by norm_num, by norm_num,
   (negative_limit_passes_through (-5) (by norm_num) (by norm_num) emptyHeap).2.1,
   (negative_limit_passes_through (-5) (by norm_num) (by norm_num) emptyHeap).2.2.2.2.1⟩

end Netlistener
